import Mathlib

/-!
Shallow embedding of `repo_slice.py` (SimPilot repository).

The program wraps an external search process (`rg`), decodes its JSON-lines
output, slices context windows out of matched files and prints them.

Modelling conventions:
* Python `Path` values are plain `String` paths.
* The filesystem is a function `String → Option String` (`none` = the path
  does not exist, `some text` = it exists and reads as `text`).
* The external process runner (`subprocess.run` with `capture_output=True`,
  `text=True`) is a parameter `runner : List String → ProcOut` mapping the
  built command line to captured stdout/stderr text.  The executable is
  assumed present (the spec's external-process dependency), so running never
  raises.
* `json.loads` is a parameter `jl : String → Option Json`; `none` models a
  raised `json.JSONDecodeError`.  Decoded Python values are modelled by the
  `Json` inductive (`Json.null` stands both for JSON `null` and for the
  Python `None` that `dict.get` returns on a missing key, exactly as after
  `json.loads`).
* Exceptions are modelled with `Except PyErr`; printing is modelled by
  returning the list of printed strings.
-/

/-- JSON values as decoded by Python's `json.loads` (numbers restricted to
integers, which is all the decoder ever inspects; Python `bool` is kept
separate because `isinstance(True, int)` is `True` in Python). -/
inductive Json where
  | null : Json
  | bool (b : Bool) : Json
  | num (n : Int) : Json
  | str (s : String) : Json
  | arr (elems : List Json) : Json
  | obj (kvs : List (String × Json)) : Json

/-- Python exceptions that the program can raise. -/
inductive PyErr where
  | fileNotFound (msg : String)
  | jsonDecodeError
  | attributeError
  | typeError
  | valueError
deriving DecidableEq

/-- The `Hit` dataclass: `file: Path`, `line: int`, `window: str`. -/
structure Hit where
  file : String
  line : Int
  window : String
deriving DecidableEq

/-- Captured output of the external process (decoded text streams). -/
structure ProcOut where
  stdout : String
  stderr : String

/-- Characters stripped by Python `str.strip()` / tested by `str.isspace()`
(ASCII whitespace; the program's inputs contain no exotic Unicode spaces). -/
def pyIsSpace (c : Char) : Bool :=
  c == ' ' || c == '\t' || c == '\n' || c == '\r' || c == '\x0b' || c == '\x0c'

/-- `s.strip() == ""`: every character of `s` is whitespace. -/
def pyBlank (s : String) : Bool :=
  s.toList.all pyIsSpace

/-- Python `str.strip()`. -/
def pyStrip (s : String) : String :=
  String.mk (((s.toList.dropWhile pyIsSpace).reverse.dropWhile pyIsSpace).reverse)

/-- Helper for `pySplitlines`: walks the character list, `acc` holds the
current (reversed) line. -/
def splitlinesAux : List Char → List Char → List String
  | [], [] => []
  | [], acc => [String.mk acc.reverse]
  | '\r' :: '\n' :: rest, acc => String.mk acc.reverse :: splitlinesAux rest []
  | '\n' :: rest, acc => String.mk acc.reverse :: splitlinesAux rest []
  | '\r' :: rest, acc => String.mk acc.reverse :: splitlinesAux rest []
  | c :: rest, acc => splitlinesAux rest (c :: acc)

/-- Python `str.splitlines()` (line breaks `\n`, `\r`, `\r\n`; no trailing
empty line for a trailing newline; `"".splitlines() == []`). -/
def pySplitlines (s : String) : List String :=
  splitlinesAux s.toList []

/-- Lookup in a decoded JSON object, as Python `dict.get(k)`: `None`
(`Json.null`) when the key is missing. -/
def dictLookup : List (String × Json) → String → Json
  | [], _ => .null
  | (k', v) :: rest, k => if k == k' then v else dictLookup rest k

/-- Python `obj.get(k)`: succeeds on a dict, raises `AttributeError` on any
other value. -/
def pyGetE : Json → String → Except PyErr Json
  | .obj kvs, k => .ok (dictLookup kvs k)
  | _, _ => .error .attributeError

/-- Python truthiness of a decoded JSON value. -/
def pyTruthy : Json → Bool
  | .null => false
  | .bool b => b
  | .num n => n != 0
  | .str s => s != ""
  | .arr elems => !elems.isEmpty
  | .obj kvs => !kvs.isEmpty

/-- Python `a or b` on decoded JSON values. -/
def pyOr (a b : Json) : Json :=
  if pyTruthy a then a else b

/-- Python `v == "match"` for a decoded JSON value `v`. -/
def jsonEqStr (j : Json) (s : String) : Bool :=
  match j with
  | .str t => t == s
  | _ => false

/-- Python `isinstance(v, int)` for a decoded JSON value (`True` for bools,
since `bool` subclasses `int` in Python). -/
def pyIsInt : Json → Bool
  | .num _ => true
  | .bool _ => true
  | _ => false

/-- The integer value of a decoded JSON value known to satisfy
`isinstance(v, int)` (Python `True == 1`, `False == 0`). -/
def pyToInt : Json → Int
  | .num n => n
  | .bool b => if b then 1 else 0
  | _ => 0

/-- Whether a decoded JSON value is Python `None`. -/
def jsonIsNull : Json → Bool
  | .null => true
  | _ => false

/-- One iteration of `run_rg`'s decoding loop body on a non-blank line
(the code between `obj = json.loads(ln)` and the `append`): `.ok none` is
`continue`, `.ok (some (file, line))` reaches the `append`, `.error` is a
raised exception. -/
def processLine (jl : String → Option Json) (ln : String) :
    Except PyErr (Option (String × Int)) :=
  match jl ln with
  | none => .error .jsonDecodeError
  | some obj =>
    match pyGetE obj "type" with
    | .error e => .error e
    | .ok ty =>
      if !jsonEqStr ty "match" then .ok none
      else
        match pyGetE obj "data" with
        | .error e => .error e
        | .ok data0 =>
          let data := pyOr data0 (Json.obj [])
          match pyGetE data "path" with
          | .error e => .error e
          | .ok path0 =>
            let path_obj := pyOr path0 (Json.obj [])
            match pyGetE path_obj "text" with
            | .error e => .error e
            | .ok file_text =>
              if jsonIsNull file_text then .ok none
              else
                match pyGetE data "line_number" with
                | .error e => .error e
                | .ok line_no =>
                  if !pyIsInt line_no then .ok none
                  else
                    match file_text with
                    | .str s => .ok (some (s, pyToInt line_no))
                    | _ => .error .typeError

/-- `run_rg`'s decoding loop over the stdout lines, accumulator `hits`
(in order): skips blank lines, processes each line, appends hits and
returns as soon as `len(hits) >= max_hits`. -/
def decodeLines (jl : String → Option Json) (max_hits : Int) :
    List String → List (String × Int) → Except PyErr (List (String × Int))
  | [], hits => .ok hits
  | ln :: rest, hits =>
    if pyBlank ln then decodeLines jl max_hits rest hits
    else
      match processLine jl ln with
      | .error e => .error e
      | .ok none => decodeLines jl max_hits rest hits
      | .ok (some h) =>
        let hits' := hits ++ [h]
        if max_hits ≤ (hits'.length : Int) then .ok hits'
        else decodeLines jl max_hits rest hits'

/-- `DEFAULT_EXCLUDE_GLOBS`. -/
def DEFAULT_EXCLUDE_GLOBS : List String :=
  ["!**/.git/**", "!**/node_modules/**", "!**/dist/**", "!**/build/**",
   "!**/.next/**", "!**/out/**", "!**/coverage/**", "!**/.turbo/**",
   "!**/.cache/**", "!**/.venv/**", "!**/venv/**", "!**/__pycache__/**"]

/-- The command line built by `run_rg` before invoking the process. -/
def rgCmd (exclude_globs : List String) (pattern repo_root : String) :
    List String :=
  ["rg", "--json", "--smart-case", "--text"]
    ++ exclude_globs.flatMap (fun g => ["--glob", g])
    ++ [pattern, repo_root]

/-- `run_rg`.  Besides the returned hit list, the result records whether the
external process was invoked and which lines were printed. -/
def run_rg (jl : String → Option Json) (runner : List String → ProcOut)
    (fs : String → Option String) (repo_root pattern : String)
    (max_hits : Int) (exclude_globs : List String) :
    Except PyErr (List (String × Int) × Bool × List String) :=
  if (fs repo_root).isSome = false then
    .error (.fileNotFound ("Repo root not found: " ++ repo_root))
  else if pyBlank pattern then
    .ok ([], false, [])
  else
    let proc := runner (rgCmd exclude_globs pattern repo_root)
    if pyBlank proc.stdout then
      if pyStrip proc.stderr != "" then .ok ([], true, [pyStrip proc.stderr])
      else .ok ([], true, [])
    else
      match decodeLines jl max_hits (pySplitlines proc.stdout) [] with
      | .error e => .error e
      | .ok hits => .ok (hits, true, [])

/-- Python list slicing `xs[start:stop]` (step 1) with possibly negative
bounds. -/
def pySlice {α : Type} (xs : List α) (start stop : Int) : List α :=
  let n : Int := xs.length
  let s := if start < 0 then max (start + n) 0 else min start n
  let e := if stop < 0 then max (stop + n) 0 else min stop n
  (xs.take e.toNat).drop s.toNat

/-- The header f-string of `slice_window`:
`f"{file_path}:{center_line} (lines {start + 1}-{end})"`. -/
def sliceHeader (file_path : String) (center_line start stop : Int) : String :=
  file_path ++ ":" ++ toString center_line ++ " (lines "
    ++ toString (start + 1) ++ "-" ++ toString stop ++ ")"

/-- `slice_window`. -/
def slice_window (fs : String → Option String) (file_path : String)
    (center_line radius : Int) : String :=
  match fs file_path with
  | none => ""
  | some text =>
    if center_line ≤ 0 then ""
    else
      let lines := pySplitlines text
      if lines.length = 0 then ""
      else
        let idx := max (center_line - 1) 0
        let start := max (idx - radius) 0
        let stop := min (idx + radius + 1) (lines.length : Int)
        sliceHeader file_path center_line start stop ++ "\n"
          ++ String.intercalate "\n" (pySlice lines start stop)

/-- The per-match loop of `search_and_slice`: slices a window for each match
and keeps it unless the window is blank. -/
def sliceLoop (fs : String → Option String) (radius : Int)
    (ms : List (String × Int)) : List Hit :=
  ms.filterMap fun m =>
    let window := slice_window fs m.1 m.2 radius
    if pyBlank window then none
    else some ⟨m.1, m.2, window⟩

/-- `search_and_slice` (the printed diagnostics of `run_rg` are carried
through in the second component). -/
def search_and_slice (jl : String → Option Json)
    (runner : List String → ProcOut) (fs : String → Option String)
    (repo_root pattern : String) (max_hits radius : Int) :
    Except PyErr (List Hit × List String) :=
  match run_rg jl runner fs repo_root pattern max_hits DEFAULT_EXCLUDE_GLOBS with
  | .error e => .error e
  | .ok (ms, _invoked, printed) =>
    if ms.length = 0 then .ok ([], printed)
    else .ok (sliceLoop fs radius ms, printed)

/-- Digits-only parse used by `pyInt`. -/
def parseDigits : List Char → Option Nat
  | [] => none
  | cs => cs.foldl (fun acc c =>
      match acc with
      | none => none
      | some n => if c.isDigit then some (n * 10 + (c.toNat - '0'.toNat)) else none)
      (some 0)

/-- Python `int(s)` on a string: optional surrounding whitespace, optional
sign, decimal digits; `none` models a raised `ValueError`. -/
def pyInt (s : String) : Option Int :=
  match (pyStrip s).toList with
  | '-' :: rest => (parseDigits rest).map (fun n => -(n : Int))
  | '+' :: rest => (parseDigits rest).map (fun n => (n : Int))
  | cs => (parseDigits cs).map (fun n => (n : Int))

/-- First usage line printed by `main`. -/
def usageLine1 : String :=
  "Usage: python repo_slice.py <repo_path> <pattern> [max_hits] [radius]"

/-- Second usage line printed by `main`. -/
def usageLine2 : String :=
  "Example: python repo_slice.py . \"SimPilot\" 5 40"

/-- The banner f-string of `main`:
`f"\n===== HIT {i}/{len(hits)} ====="`. -/
def bannerStr (i total : Nat) : String :=
  "\n===== HIT " ++ toString i ++ "/" ++ toString total ++ " ====="

/-- The printing loop of `main` over the hits: for the `i`-th hit (1-based)
a banner line and then the window. -/
def renderHits (hits : List Hit) : List String :=
  (hits.enum.map (fun p => [bannerStr (p.1 + 1) hits.length, p.2.window])).flatten

/-- `main`.  `argv` is the full `sys.argv` (program name first); `resolve`
models `Path(...).resolve()` (depends on the working directory, so it is a
parameter).  The result is the exit status together with every line printed
on the way (diagnostics printed inside `run_rg` included). -/
def mainFn (jl : String → Option Json) (runner : List String → ProcOut)
    (fs : String → Option String) (resolve : String → String)
    (argv : List String) : Except PyErr (Int × List String) :=
  if argv.length < 3 then .ok (2, [usageLine1, usageLine2])
  else
    let repo_root := resolve (argv.getD 1 "")
    let pattern := argv.getD 2 ""
    match (if 4 ≤ argv.length then pyInt (argv.getD 3 "") else some 8) with
    | none => .error .valueError
    | some max_hits =>
      match (if 5 ≤ argv.length then pyInt (argv.getD 4 "") else some 60) with
      | none => .error .valueError
      | some radius =>
        match search_and_slice jl runner fs repo_root pattern max_hits radius with
        | .error e => .error e
        | .ok (hits, printed) =>
          if hits.length = 0 then .ok (0, printed ++ ["No matches."])
          else .ok (0, printed ++ renderHits hits)

/-! ### Concrete sample data for witnesses and counterexamples

The JSON lines below are verbatim possible stdout lines of `rg --json`
(braces written with `\x7b`/`\x7d` escapes).  `jlSample` records what
Python's `json.loads` returns on exactly these strings; on every other
string it conservatively reports a parse failure, which is what
`json.loads` does on the non-JSON strings used in the examples. -/

/-- A well-formed match record for `/repo/a.py`, line 5. -/
def mlineA : String :=
  "\x7b\"type\":\"match\",\"data\":\x7b\"path\":\x7b\"text\":\"/repo/a.py\"\x7d,\"line_number\":5\x7d\x7d"

/-- A well-formed match record for `/repo/a.py`, line 2. -/
def mlineB : String :=
  "\x7b\"type\":\"match\",\"data\":\x7b\"path\":\x7b\"text\":\"/repo/a.py\"\x7d,\"line_number\":2\x7d\x7d"

/-- A match record whose `data.path` object lacks the `text` field. -/
def mlineNoText : String :=
  "\x7b\"type\":\"match\",\"data\":\x7b\"path\":\x7b\x7d,\"line_number\":7\x7d\x7d"

/-- A match record whose `data.line_number` is a string, not an integer. -/
def mlineBadNum : String :=
  "\x7b\"type\":\"match\",\"data\":\x7b\"path\":\x7b\"text\":\"/repo/a.py\"\x7d,\"line_number\":\"7\"\x7d\x7d"

/-- A non-match (`begin`) record, as `rg --json` interleaves. -/
def blineBegin : String :=
  "\x7b\"type\":\"begin\",\"data\":\x7b\"path\":\x7b\"text\":\"/repo/a.py\"\x7d\x7d\x7d"

/-- A line that is not valid JSON (`json.loads` raises on it). -/
def badLine : String := "this is not json"

/-- Decoded value of `mlineA`. -/
def jA : Json :=
  .obj [("type", .str "match"),
        ("data", .obj [("path", .obj [("text", .str "/repo/a.py")]),
                       ("line_number", .num 5)])]

/-- Decoded value of `mlineB`. -/
def jB : Json :=
  .obj [("type", .str "match"),
        ("data", .obj [("path", .obj [("text", .str "/repo/a.py")]),
                       ("line_number", .num 2)])]

/-- Decoded value of `mlineNoText`. -/
def jNoText : Json :=
  .obj [("type", .str "match"),
        ("data", .obj [("path", .obj []), ("line_number", .num 7)])]

/-- Decoded value of `mlineBadNum`. -/
def jBadNum : Json :=
  .obj [("type", .str "match"),
        ("data", .obj [("path", .obj [("text", .str "/repo/a.py")]),
                       ("line_number", .str "7")])]

/-- Decoded value of `blineBegin`. -/
def jBegin : Json :=
  .obj [("type", .str "begin"),
        ("data", .obj [("path", .obj [("text", .str "/repo/a.py")])])]

/-- Sample stand-in for `json.loads`, covering the concrete lines above. -/
def jlSample (s : String) : Option Json :=
  if s = mlineA then some jA
  else if s = mlineB then some jB
  else if s = mlineNoText then some jNoText
  else if s = mlineBadNum then some jBadNum
  else if s = blineBegin then some jBegin
  else none

/-- Contents of the sample file `/repo/a.py`: ten lines. -/
def fileTextA : String :=
  "alpha\nbravo\ncharlie\ndelta\necho\nfoxtrot\ngolf\nhotel\nindia\njuliet"

/-- Sample filesystem: the repo root `/repo` and one file `/repo/a.py`. -/
def fsA (p : String) : Option String :=
  if p = "/repo" then some ""
  else if p = "/repo/a.py" then some fileTextA
  else none

/-- A process runner returning fixed stdout/stderr regardless of command. -/
def runnerOf (out err : String) : List String → ProcOut :=
  fun _ => ⟨out, err⟩

/-! ### Helper lemmas -/

lemma string_mk_eq_empty_iff (l : List Char) : String.mk l = "" ↔ l = [] := by
  constructor
  · intro h; have := congrArg String.data h; simpa using this
  · intro h; subst h; rfl

lemma pyStrip_eq_empty_iff (s : String) : pyStrip s = "" ↔ pyBlank s = true := by
  unfold pyStrip pyBlank
  rw [string_mk_eq_empty_iff, List.reverse_eq_nil_iff, List.dropWhile_eq_nil_iff,
    List.all_eq_true]
  constructor
  · intro h x hx
    have hsplit := List.takeWhile_append_dropWhile (p := pyIsSpace) (l := s.toList)
    rw [← hsplit] at hx
    rcases List.mem_append.mp hx with h1 | h1
    · exact List.mem_takeWhile_imp h1
    · exact h x (List.mem_reverse.mpr h1)
  · intro h x hx
    exact h x ((List.dropWhile_sublist pyIsSpace).mem (List.mem_reverse.mp hx))

lemma pyBlank_append (a b : String) :
    pyBlank (a ++ b) = (pyBlank a && pyBlank b) := by
  have : (a ++ b).toList = a.toList ++ b.toList := by simp [String.toList]
  simp [pyBlank, this, List.all_append]

lemma pyBlank_sliceHeader (p : String) (c s e : Int) :
    pyBlank (sliceHeader p c s e) = false := by
  have hc : pyBlank ":" = false := by decide
  simp [sliceHeader, pyBlank_append, hc]

/-! ### Claim theorems -/

/-- C4: for an existing repository root and a pattern that is empty or pure
whitespace, `run_rg` returns an empty match list without invoking the
external process, and the result does not depend on the process runner. -/
theorem c4_blank_pattern (jl : String → Option Json)
    (runner runner' : List String → ProcOut) (fs : String → Option String)
    (repo_root pattern : String) (mh : Int) (globs : List String)
    (hroot : (fs repo_root).isSome = true) (hpat : pyBlank pattern = true) :
    run_rg jl runner fs repo_root pattern mh globs = .ok ([], false, [])
    ∧ run_rg jl runner fs repo_root pattern mh globs
        = run_rg jl runner' fs repo_root pattern mh globs := by
  constructor <;> simp [run_rg, hroot, hpat]

/-- C4 witness: a blank pattern against the sample repo, under two runners
that would behave very differently were they invoked. -/
theorem c4_blank_pattern_witness :
    run_rg jlSample (runnerOf (mlineA ++ "\n" ++ mlineB) "") fsA "/repo" "  "
        8 DEFAULT_EXCLUDE_GLOBS = .ok ([], false, [])
    ∧ run_rg jlSample (runnerOf (mlineA ++ "\n" ++ mlineB) "") fsA "/repo" "  "
        8 DEFAULT_EXCLUDE_GLOBS
      = run_rg jlSample (runnerOf "" "fatal error") fsA "/repo" "  "
          8 DEFAULT_EXCLUDE_GLOBS :=
  c4_blank_pattern jlSample (runnerOf (mlineA ++ "\n" ++ mlineB) "")
    (runnerOf "" "fatal error") fsA "/repo" "  " 8 DEFAULT_EXCLUDE_GLOBS
    (by decide) (by decide)

/-- C7: when the process's stdout is blank and its stderr is not, `run_rg`
returns an empty match list without raising, and prints the (stripped,
non-empty) stderr text as its only diagnostic. -/
theorem c7_stderr_diagnostic (jl : String → Option Json)
    (runner : List String → ProcOut) (fs : String → Option String)
    (repo_root pattern : String) (mh : Int) (globs : List String)
    (hroot : (fs repo_root).isSome = true) (hpat : pyBlank pattern = false)
    (hout : pyBlank (runner (rgCmd globs pattern repo_root)).stdout = true)
    (herr : pyBlank (runner (rgCmd globs pattern repo_root)).stderr = false) :
    run_rg jl runner fs repo_root pattern mh globs
      = .ok ([], true, [pyStrip (runner (rgCmd globs pattern repo_root)).stderr])
    ∧ pyStrip (runner (rgCmd globs pattern repo_root)).stderr ≠ "" := by
  have hne : pyStrip (runner (rgCmd globs pattern repo_root)).stderr ≠ "" := by
    intro h
    rw [pyStrip_eq_empty_iff] at h
    rw [h] at herr
    cases herr
  refine ⟨?_, hne⟩
  simp [run_rg, hroot, hpat, hout, hne]

/-- C7 witness: empty stdout, stderr `"regex parse error\n"`. -/
theorem c7_stderr_diagnostic_witness :
    run_rg jlSample (runnerOf "" "regex parse error\n") fsA "/repo" "pat" 8
        DEFAULT_EXCLUDE_GLOBS
      = .ok ([], true,
          [pyStrip ((runnerOf "" "regex parse error\n")
            (rgCmd DEFAULT_EXCLUDE_GLOBS "pat" "/repo")).stderr])
    ∧ pyStrip ((runnerOf "" "regex parse error\n")
        (rgCmd DEFAULT_EXCLUDE_GLOBS "pat" "/repo")).stderr ≠ "" :=
  c7_stderr_diagnostic jlSample (runnerOf "" "regex parse error\n") fsA "/repo"
    "pat" 8 DEFAULT_EXCLUDE_GLOBS (by decide) (by decide) (by decide) (by decide)

/-- C8: `slice_window` returns the empty string when the file does not exist
(any center/radius), when the center line is non-positive, and when the
file's text splits into zero lines. -/
theorem c8_slice_window_empty (fs : String → Option String) (p : String)
    (L R : Int) :
    (fs p = none → slice_window fs p L R = "")
    ∧ (L ≤ 0 → slice_window fs p L R = "")
    ∧ (∀ text, fs p = some text → pySplitlines text = [] →
        slice_window fs p L R = "") := by
  refine ⟨?_, ?_, ?_⟩
  · intro h; simp [slice_window, h]
  · intro hL
    unfold slice_window
    cases hfs : fs p with
    | none => rfl
    | some text => simp [hL]
  · intro text h hsplit
    unfold slice_window
    rw [h]
    rcases le_or_lt L 0 with hL | hL
    · simp [hL]
    · simp [hsplit, not_le.mpr hL]

/-- C8 witness: the three cases at concrete inputs. -/
theorem c8_slice_window_empty_witness :
    slice_window fsA "/repo/missing.py" 5 2 = ""
    ∧ slice_window fsA "/repo/a.py" 0 2 = ""
    ∧ slice_window (fun _ => some "") "/repo/empty.py" 1 2 = "" :=
  ⟨(c8_slice_window_empty fsA "/repo/missing.py" 5 2).1 (by decide),
   (c8_slice_window_empty fsA "/repo/a.py" 0 2).2.1 (by decide),
   (c8_slice_window_empty (fun _ => some "") "/repo/empty.py" 1 2).2.2 ""
     rfl rfl⟩

lemma pySlice_eq_drop_take {α : Type} (xs : List α) (start stop : Int)
    (h0 : 0 ≤ start) (h1 : 0 ≤ stop) (h2 : stop ≤ (xs.length : Int))
    (h3 : start ≤ (xs.length : Int)) :
    pySlice xs start stop = (xs.drop start.toNat).take (stop - start).toNat := by
  unfold pySlice
  have hs : ¬ start < 0 := by omega
  have he : ¬ stop < 0 := by omega
  simp only [hs, he, if_neg, if_false]
  rw [min_eq_left h3, min_eq_left h2, List.drop_take]
  congr 1
  omega

/-- C2: on an existing file with `N` lines, center `1 ≤ L ≤ N` and radius
`R ≥ 0`, the window header reports exactly the range
`start + 1 .. stop` with `start = max (L-1-R) 0` and
`stop = min (L-1+R+1) N`, and the body is exactly lines
`start+1 .. stop` of the file (`stop - start` lines). -/
theorem c2_slice_window_range (fs : String → Option String) (p text : String)
    (L R N : Int) (hfs : fs p = some text)
    (hN : N = ((pySplitlines text).length : Int))
    (hL1 : 1 ≤ L) (hLN : L ≤ N) (hR : 0 ≤ R) :
    slice_window fs p L R
      = sliceHeader p L (max (L - 1 - R) 0) (min (L - 1 + R + 1) N) ++ "\n"
        ++ String.intercalate "\n"
            (((pySplitlines text).drop (max (L - 1 - R) 0).toNat).take
              (min (L - 1 + R + 1) N - max (L - 1 - R) 0).toNat)
    ∧ (((pySplitlines text).drop (max (L - 1 - R) 0).toNat).take
          (min (L - 1 + R + 1) N - max (L - 1 - R) 0).toNat).length
        = (min (L - 1 + R + 1) N - max (L - 1 - R) 0).toNat := by
  have hs0 : (0 : Int) ≤ max (L - 1 - R) 0 := le_max_right _ _
  have hsle : max (L - 1 - R) 0 ≤ L - 1 := max_le (by omega) (by omega)
  have hstop1 : L ≤ min (L - 1 + R + 1) N := le_min (by omega) (by omega)
  have hstople : min (L - 1 + R + 1) N ≤ N := min_le_right _ _
  constructor
  · unfold slice_window
    rw [hfs]
    have hL0 : ¬ (L ≤ 0) := by omega
    have hlen : ¬ ((pySplitlines text).length = 0) := by omega
    simp only [hL0, if_false, hlen]
    have hidx : max (L - 1) 0 = L - 1 := max_eq_left (by omega)
    rw [hidx, ← hN,
      pySlice_eq_drop_take (pySplitlines text) (max (L - 1 - R) 0)
        (min (L - 1 + R + 1) N) hs0 (by omega) (by omega) (by omega)]
  · rw [List.length_take, List.length_drop]
    rcases Nat.le_total ((min (L - 1 + R + 1) N - max (L - 1 - R) 0).toNat)
        ((pySplitlines text).length - (max (L - 1 - R) 0).toNat) with h | h
    · rw [min_eq_left h]
    · rw [min_eq_right h]
      omega

/-- C2 witness: `/repo/a.py` has 10 lines; center 5, radius 2 shows lines
3 through 7. -/
theorem c2_slice_window_range_witness :
    slice_window fsA "/repo/a.py" 5 2
      = sliceHeader "/repo/a.py" 5 (max ((5:Int) - 1 - 2) 0)
          (min ((5:Int) - 1 + 2 + 1) 10)
        ++ "\n" ++ String.intercalate "\n"
            (((pySplitlines fileTextA).drop (max ((5:Int) - 1 - 2) 0).toNat).take
              (min ((5:Int) - 1 + 2 + 1) 10 - max ((5:Int) - 1 - 2) 0).toNat)
    ∧ (((pySplitlines fileTextA).drop (max ((5:Int) - 1 - 2) 0).toNat).take
          (min ((5:Int) - 1 + 2 + 1) 10 - max ((5:Int) - 1 - 2) 0).toNat).length
        = (min ((5:Int) - 1 + 2 + 1) 10 - max ((5:Int) - 1 - 2) 0).toNat :=
  c2_slice_window_range fsA "/repo/a.py" fileTextA 5 2 10 rfl (by decide)
    (by decide) (by decide) (by decide)

/-- C10: on an existing file with at least one line and any center `L ≥ 1`,
`slice_window` always returns the header followed by the (possibly empty)
sliced body — even when `L` exceeds the line count or the radius is
negative — so the result is never blank and the orchestrator loop keeps
such a hit. -/
theorem c10_slice_window_nonblank (fs : String → Option String)
    (p text : String) (L R : Int) (hfs : fs p = some text)
    (hne : (pySplitlines text).length ≠ 0) (hL : 1 ≤ L) :
    slice_window fs p L R
      = sliceHeader p L (max (L - 1 - R) 0)
          (min (L - 1 + R + 1) ((pySplitlines text).length : Int))
        ++ "\n" ++ String.intercalate "\n"
            (pySlice (pySplitlines text) (max (L - 1 - R) 0)
              (min (L - 1 + R + 1) ((pySplitlines text).length : Int)))
    ∧ slice_window fs p L R ≠ ""
    ∧ pyBlank (slice_window fs p L R) = false
    ∧ sliceLoop fs R [(p, L)] = [⟨p, L, slice_window fs p L R⟩] := by
  have heq : slice_window fs p L R
      = sliceHeader p L (max (L - 1 - R) 0)
          (min (L - 1 + R + 1) ((pySplitlines text).length : Int))
        ++ "\n" ++ String.intercalate "\n"
            (pySlice (pySplitlines text) (max (L - 1 - R) 0)
              (min (L - 1 + R + 1) ((pySplitlines text).length : Int))) := by
    unfold slice_window
    rw [hfs]
    have hL0 : ¬ (L ≤ 0) := by omega
    simp only [hL0, if_false, hne]
    rw [max_eq_left (by omega : (0:Int) ≤ L - 1)]
  have hblank : pyBlank (slice_window fs p L R) = false := by
    rw [heq, pyBlank_append, pyBlank_append, pyBlank_sliceHeader]
    simp
  have hnee : slice_window fs p L R ≠ "" := by
    intro h
    rw [h] at hblank
    cases hblank
  refine ⟨heq, hnee, hblank, ?_⟩
  simp [sliceLoop, hblank]

/-- C10 witness: center line 15 of a 10-line file still yields a hit whose
window is just the (inverted-range) header, and the orchestrator keeps it. -/
theorem c10_slice_window_nonblank_witness :
    slice_window fsA "/repo/a.py" 15 1
      = sliceHeader "/repo/a.py" 15 (max ((15:Int) - 1 - 1) 0)
          (min ((15:Int) - 1 + 1 + 1) ((pySplitlines fileTextA).length : Int))
        ++ "\n" ++ String.intercalate "\n"
            (pySlice (pySplitlines fileTextA) (max ((15:Int) - 1 - 1) 0)
              (min ((15:Int) - 1 + 1 + 1) ((pySplitlines fileTextA).length : Int)))
    ∧ slice_window fsA "/repo/a.py" 15 1 ≠ ""
    ∧ pyBlank (slice_window fsA "/repo/a.py" 15 1) = false
    ∧ sliceLoop fsA 1 [("/repo/a.py", 15)]
        = [⟨"/repo/a.py", 15, slice_window fsA "/repo/a.py" 15 1⟩] :=
  c10_slice_window_nonblank fsA "/repo/a.py" fileTextA 15 1 rfl (by decide)
    (by decide)

lemma sliceLoop_cons_blank (fs : String → Option String) (R : Int)
    (m : String × Int) (ms : List (String × Int))
    (hb : pyBlank (slice_window fs m.1 m.2 R) = true) :
    sliceLoop fs R (m :: ms) = sliceLoop fs R ms := by
  simp [sliceLoop, List.filterMap_cons, hb]

lemma sliceLoop_cons_nonblank (fs : String → Option String) (R : Int)
    (m : String × Int) (ms : List (String × Int))
    (hb : pyBlank (slice_window fs m.1 m.2 R) = false) :
    sliceLoop fs R (m :: ms)
      = ⟨m.1, m.2, slice_window fs m.1 m.2 R⟩ :: sliceLoop fs R ms := by
  simp [sliceLoop, List.filterMap_cons, hb]

/-- C6: the orchestrator's per-match loop keeps at most one hit per decoded
match (never more than the decoder's count), keeps no blank windows,
preserves the decoder's order (the projected hits form a sublist), does not
deduplicate repeated `(file, line)` matches, and `search_and_slice` applies
exactly this loop to the decoder's output. -/
theorem c6_orchestrator_invariants (jl : String → Option Json)
    (runner : List String → ProcOut) (fs : String → Option String)
    (repo_root pattern : String) (mh R : Int) (ms : List (String × Int)) :
    (sliceLoop fs R ms).length ≤ ms.length
    ∧ (∀ h ∈ sliceLoop fs R ms, pyBlank h.window = false)
    ∧ List.Sublist ((sliceLoop fs R ms).map (fun h => (h.file, h.line))) ms
    ∧ (∀ m : String × Int, pyBlank (slice_window fs m.1 m.2 R) = false →
        (sliceLoop fs R ms).count ⟨m.1, m.2, slice_window fs m.1 m.2 R⟩
          = ms.count m)
    ∧ (∀ inv printed,
        run_rg jl runner fs repo_root pattern mh DEFAULT_EXCLUDE_GLOBS
          = .ok (ms, inv, printed) →
        search_and_slice jl runner fs repo_root pattern mh R
          = .ok (sliceLoop fs R ms, printed)) := by
  refine ⟨List.length_filterMap_le _ _, ?_, ?_, ?_, ?_⟩
  · intro h hmem
    rcases List.mem_filterMap.mp hmem with ⟨m, _, hf⟩
    dsimp only at hf
    split at hf
    · exact Option.noConfusion hf
    · next hcond =>
        injection hf with hf
        rw [← hf]
        rw [Bool.not_eq_true] at hcond
        exact hcond
  · induction ms with
    | nil => simp [sliceLoop]
    | cons m ms ih =>
      by_cases hb : pyBlank (slice_window fs m.1 m.2 R) = true
      · rw [sliceLoop_cons_blank fs R m ms hb]
        exact ih.trans (List.sublist_cons_self m ms)
      · rw [Bool.not_eq_true] at hb
        rw [sliceLoop_cons_nonblank fs R m ms hb]
        simp only [List.map_cons]
        rw [Prod.mk.eta]
        exact List.Sublist.cons₂ m ih
  · intro m hb
    induction ms with
    | nil => simp [sliceLoop]
    | cons m' ms ih =>
      by_cases hb' : pyBlank (slice_window fs m'.1 m'.2 R) = true
      · rw [sliceLoop_cons_blank fs R m' ms hb']
        have hne : m' ≠ m := by
          intro he
          rw [he, hb] at hb'
          exact Bool.noConfusion hb'
        rw [List.count_cons]
        simp only [beq_iff_eq, hne, if_false]
        simpa using ih
      · rw [Bool.not_eq_true] at hb'
        rw [sliceLoop_cons_nonblank fs R m' ms hb']
        rw [List.count_cons, List.count_cons]
        by_cases he : m' = m
        · subst he
          simp [ih]
        · have hne2 : (⟨m'.1, m'.2, slice_window fs m'.1 m'.2 R⟩ : Hit)
              ≠ ⟨m.1, m.2, slice_window fs m.1 m.2 R⟩ := by
            intro hh
            apply he
            injection hh with h1 h2 h3
            exact Prod.ext h1 h2
          simp only [beq_iff_eq, hne2, he, if_false]
          simpa using ih
  · intro inv printed hrun
    unfold search_and_slice
    rw [hrun]
    by_cases hlen : ms.length = 0
    · have hnil : ms = [] := List.length_eq_zero.mp hlen
      subst hnil
      simp [sliceLoop]
    · simp [hlen]

/-- C6 witness: two matches for line 5 (a duplicate) plus one for a file
that does not exist; the duplicate is kept twice, the missing file's blank
window is dropped, and `search_and_slice` returns exactly the loop's
output. -/
theorem c6_orchestrator_invariants_witness :
    (sliceLoop fsA 2 [("/repo/a.py", 5), ("/repo/a.py", 5), ("/repo/gone.py", 1)]).length
        ≤ ([("/repo/a.py", (5:Int)), ("/repo/a.py", 5), ("/repo/gone.py", 1)]).length
    ∧ (sliceLoop fsA 2 [("/repo/a.py", 5), ("/repo/a.py", 5), ("/repo/gone.py", 1)]).count
          ⟨"/repo/a.py", 5, slice_window fsA "/repo/a.py" 5 2⟩
        = ([("/repo/a.py", (5:Int)), ("/repo/a.py", 5), ("/repo/gone.py", 1)]).count
            ("/repo/a.py", 5) := by
  have h := c6_orchestrator_invariants jlSample (runnerOf "" "") fsA "/repo"
    "pat" 8 2 [("/repo/a.py", 5), ("/repo/a.py", 5), ("/repo/gone.py", 1)]
  exact ⟨h.1, h.2.2.2.1 ("/repo/a.py", 5) (by decide)⟩

lemma decodeLines_length_le (jl : String → Option Json) (mh : Int) :
    ∀ (lines : List String) (acc : List (String × Int)),
      (acc.length : Int) < mh →
      ∀ hits, decodeLines jl mh lines acc = .ok hits →
      (hits.length : Int) ≤ mh := by
  intro lines
  induction lines with
  | nil =>
    intro acc hacc hits h
    simp only [decodeLines, Except.ok.injEq] at h
    subst h
    omega
  | cons ln rest ih =>
    intro acc hacc hits h
    simp only [decodeLines] at h
    split at h
    · exact ih acc hacc hits h
    · rcases hp : processLine jl ln with e | o
      · rw [hp] at h
        exact Except.noConfusion h
      · rw [hp] at h
        rcases o with _ | hit
        · exact ih acc hacc hits h
        · dsimp only at h
          split at h
          · next hcap =>
              injection h with h
              subst h
              simp only [List.length_append, List.length_cons, List.length_nil] at hcap ⊢
              omega
          · next hcap =>
              refine ih (acc ++ [hit]) ?_ hits h
              simp only [List.length_append, List.length_cons, List.length_nil] at hcap ⊢
              omega

lemma decodeLines_stop (jl : String → Option Json) (mh : Int)
    (rest : List String) :
    ∀ (lines : List String) (acc : List (String × Int)),
      (acc.length : Int) < mh →
      ∀ hits, decodeLines jl mh lines acc = .ok hits →
      mh ≤ (hits.length : Int) →
      decodeLines jl mh (lines ++ rest) acc = .ok hits := by
  intro lines
  induction lines with
  | nil =>
    intro acc hacc hits h hlen
    simp only [decodeLines, Except.ok.injEq] at h
    subst h
    omega
  | cons ln rest' ih =>
    intro acc hacc hits h hlen
    simp only [decodeLines] at h
    rw [List.cons_append]
    simp only [decodeLines]
    split at h
    · next hb => simp only [hb, if_true]; exact ih acc hacc hits h hlen
    · next hb =>
      simp only [hb, if_false]
      rcases hp : processLine jl ln with e | o
      · rw [hp] at h
        exact Except.noConfusion h
      · rw [hp] at h
        rcases o with _ | hit
        · exact ih acc hacc hits h hlen
        · dsimp only at h ⊢
          split at h
          · next hcap =>
              rw [if_pos hcap]
              exact h
          · next hcap =>
              rw [if_neg hcap]
              refine ih (acc ++ [hit]) ?_ hits h hlen
              simp only [List.length_append, List.length_cons, List.length_nil] at hcap ⊢
              omega

/-- C3 counterexample to the claim as stated: with `max_hits = 0` (a value
the cap is supposed to bound), the decoder still returns one match, because
the cap is only checked after a hit is appended. -/
theorem c3_counterexample :
    run_rg jlSample (runnerOf (mlineA ++ "\n" ++ mlineB) "") fsA "/repo" "pat"
        0 DEFAULT_EXCLUDE_GLOBS
      = .ok ([("/repo/a.py", 5)], true, [])
    ∧ ¬ ((([("/repo/a.py", (5:Int))] : List (String × Int)).length : Int) ≤ 0) :=
  ⟨by rfl, by decide⟩

/-- C3 (amended): for every requested maximum `max_hits ≥ 1`, `run_rg`
never returns more than `max_hits` matches, and decoding stops as soon as
the cap is reached: once a prefix of the output yields `max_hits` hits,
any further output lines are never processed and leave the result
unchanged. -/
theorem c3_amended_cap (jl : String → Option Json)
    (runner : List String → ProcOut) (fs : String → Option String)
    (repo_root pattern : String) (mh : Int) (globs : List String)
    (hmh : 1 ≤ mh) :
    (∀ hits inv printed,
        run_rg jl runner fs repo_root pattern mh globs = .ok (hits, inv, printed) →
        (hits.length : Int) ≤ mh)
    ∧ (∀ lines rest hits,
        decodeLines jl mh lines [] = .ok hits → mh ≤ (hits.length : Int) →
        decodeLines jl mh (lines ++ rest) [] = .ok hits) := by
  constructor
  · intro hits inv printed h
    unfold run_rg at h
    split at h
    · exact Except.noConfusion h
    · split at h
      · simp only [Except.ok.injEq, Prod.mk.injEq] at h
        rw [← h.1]
        simp
        omega
      · dsimp only at h
        split at h
        · split at h
          · simp only [Except.ok.injEq, Prod.mk.injEq] at h
            rw [← h.1]
            simp
            omega
          · simp only [Except.ok.injEq, Prod.mk.injEq] at h
            rw [← h.1]
            simp
            omega
        · rcases hd : decodeLines jl mh
              (pySplitlines (runner (rgCmd globs pattern repo_root)).stdout) [] with e | hits0
          · rw [hd] at h
            exact Except.noConfusion h
          · rw [hd] at h
            simp only [Except.ok.injEq, Prod.mk.injEq] at h
            rw [← h.1]
            exact decodeLines_length_le jl mh _ [] (by simpa using hmh) hits0 hd
  · intro lines rest hits h hlen
    exact decodeLines_stop jl mh rest lines [] (by simpa using hmh) hits h hlen

/-- C3 witness: `max_hits = 1` with two match records — one hit returned,
and appending further output after the capped prefix changes nothing. -/
theorem c3_amended_cap_witness :
    ((([("/repo/a.py", (5:Int))] : List (String × Int)).length : Int) ≤ 1)
    ∧ decodeLines jlSample 1 ([mlineA] ++ [mlineB]) [] = .ok [("/repo/a.py", 5)] := by
  have h := c3_amended_cap jlSample (runnerOf (mlineA ++ "\n" ++ mlineB) "")
    fsA "/repo" "pat" 1 DEFAULT_EXCLUDE_GLOBS (by decide)
  exact ⟨h.1 [("/repo/a.py", 5)] true [] (by rfl),
         h.2 [mlineA] [mlineB] [("/repo/a.py", 5)] (by rfl) (by decide)⟩

/-- C1 counterexample to the claim as stated: a malformed JSON line is not
silently skipped — `json.loads` raises and the whole decode aborts, so the
well-formed match record after it is never returned. -/
theorem c1_counterexample :
    run_rg jlSample (runnerOf (badLine ++ "\n" ++ mlineA) "") fsA "/repo" "pat"
        8 DEFAULT_EXCLUDE_GLOBS = .error PyErr.jsonDecodeError
    ∧ run_rg jlSample (runnerOf (badLine ++ "\n" ++ mlineA) "") fsA "/repo" "pat"
        8 DEFAULT_EXCLUDE_GLOBS ≠ .ok ([("/repo/a.py", 5)], true, []) := by
  have h1 : run_rg jlSample (runnerOf (badLine ++ "\n" ++ mlineA) "") fsA "/repo"
      "pat" 8 DEFAULT_EXCLUDE_GLOBS = .error PyErr.jsonDecodeError := by rfl
  refine ⟨h1, ?_⟩
  rw [h1]
  exact fun h => Except.noConfusion h

/-- C1 (amended): the decoder silently skips a record missing the
`data.path.text` field or one whose `data.line_number` is not an integer
and continues with the remaining lines; a malformed JSON line, however, is
not skipped — `json.loads` raises an uncaught decode error there. -/
theorem c1_amended_decode_skips (jl : String → Option Json) (mh : Int)
    (ln : String) (rest : List String) (acc : List (String × Int))
    (hnb : pyBlank ln = false) :
    (processLine jl ln = .ok none →
        decodeLines jl mh (ln :: rest) acc = decodeLines jl mh rest acc)
    ∧ (jl ln = none →
        processLine jl ln = .error .jsonDecodeError
        ∧ decodeLines jl mh (ln :: rest) acc = .error .jsonDecodeError)
    ∧ (∀ tkvs dkvs pkvs, jl ln = some (.obj tkvs) →
        dictLookup tkvs "type" = .str "match" →
        pyOr (dictLookup tkvs "data") (.obj []) = .obj dkvs →
        pyOr (dictLookup dkvs "path") (.obj []) = .obj pkvs →
        dictLookup pkvs "text" = .null →
        processLine jl ln = .ok none)
    ∧ (∀ tkvs dkvs pkvs ft, jl ln = some (.obj tkvs) →
        dictLookup tkvs "type" = .str "match" →
        pyOr (dictLookup tkvs "data") (.obj []) = .obj dkvs →
        pyOr (dictLookup dkvs "path") (.obj []) = .obj pkvs →
        dictLookup pkvs "text" = ft → jsonIsNull ft = false →
        pyIsInt (dictLookup dkvs "line_number") = false →
        processLine jl ln = .ok none) := by
  refine ⟨?_, ?_, ?_, ?_⟩
  · intro hp
    simp [decodeLines, hnb, hp]
  · intro hj
    have hp : processLine jl ln = .error .jsonDecodeError := by
      simp [processLine, hj]
    exact ⟨hp, by simp [decodeLines, hnb, hp]⟩
  · intro tkvs dkvs pkvs h1 h2 h3 h4 h5
    simp [processLine, h1, pyGetE, h2, h3, h4, h5, jsonEqStr, jsonIsNull]
  · intro tkvs dkvs pkvs ft h1 h2 h3 h4 h5 h6 h7
    simp [processLine, h1, pyGetE, h2, h3, h4, h5, h6, h7, jsonEqStr]

/-- C1 witness: a record with no `data.path.text` is skipped and decoding
continues; a record with a string `line_number` is skipped; the malformed
line raises. -/
theorem c1_amended_decode_skips_witness :
    decodeLines jlSample 8 (mlineNoText :: [mlineA]) []
        = decodeLines jlSample 8 [mlineA] []
    ∧ processLine jlSample mlineNoText = .ok none
    ∧ processLine jlSample mlineBadNum = .ok none
    ∧ processLine jlSample badLine = .error .jsonDecodeError := by
  have h := c1_amended_decode_skips jlSample 8 mlineNoText [mlineA] [] (by decide)
  have hskip : processLine jlSample mlineNoText = .ok none :=
    h.2.2.1 [("type", .str "match"),
             ("data", .obj [("path", .obj []), ("line_number", .num 7)])]
      [("path", .obj []), ("line_number", .num 7)] [] rfl rfl rfl rfl rfl
  have h2 := c1_amended_decode_skips jlSample 8 mlineBadNum [] [] (by decide)
  have hbad : processLine jlSample mlineBadNum = .ok none :=
    h2.2.2.2 [("type", .str "match"),
              ("data", .obj [("path", .obj [("text", .str "/repo/a.py")]),
                             ("line_number", .str "7")])]
      [("path", .obj [("text", .str "/repo/a.py")]), ("line_number", .str "7")]
      [("text", .str "/repo/a.py")] (.str "/repo/a.py") rfl rfl rfl rfl rfl rfl
      rfl
  have h3 := c1_amended_decode_skips jlSample 8 badLine [] [] (by decide)
  exact ⟨h.1 hskip, hskip, hbad, (h3.2.1 rfl).1⟩

lemma processLine_ne_fnf (jl : String → Option Json) (ln : String)
    (msg : String) :
    processLine jl ln ≠ .error (.fileNotFound msg) := by
  unfold processLine
  rcases jl ln with _ | obj
  · simp
  rcases obj with _ | b | n | s | elems | kvs <;> try simp [pyGetE]
  by_cases ht : jsonEqStr (dictLookup kvs "type") "match" <;> simp [pyGetE, ht]
  rcases hd : pyOr (dictLookup kvs "data") (Json.obj [])
      with _ | b2 | n2 | s2 | el2 | dkvs <;> simp [hd, pyGetE]
  rcases hp : pyOr (dictLookup dkvs "path") (Json.obj [])
      with _ | b3 | n3 | s3 | el3 | pkvs <;> simp [hp, pyGetE]
  by_cases hn : jsonIsNull (dictLookup pkvs "text") <;> simp [hn]
  by_cases hi : pyIsInt (dictLookup dkvs "line_number") <;> simp [hi]
  rcases hf : dictLookup pkvs "text" with _ | b4 | n4 | s4 | el4 | okvs <;>
    simp [hf]

lemma decodeLines_ne_fnf (jl : String → Option Json) (mh : Int)
    (msg : String) :
    ∀ (lines : List String) (acc : List (String × Int)),
      decodeLines jl mh lines acc ≠ .error (.fileNotFound msg) := by
  intro lines
  induction lines with
  | nil => intro acc; simp [decodeLines]
  | cons ln rest ih =>
    intro acc
    simp only [decodeLines]
    split
    · exact ih acc
    · rcases hp : processLine jl ln with e | o
      · intro h
        injection h with h
        rw [h] at hp
        exact processLine_ne_fnf jl ln msg hp
      · rcases o with _ | hit
        · exact ih acc
        · dsimp only
          split
          · exact fun h => Except.noConfusion h
          · exact ih (acc ++ [hit])

/-- C5: `run_rg` raises `FileNotFoundError` exactly when the repository
root does not exist, and the error is caught nowhere: it propagates out of
`search_and_slice` and out of `main`. -/
theorem c5_root_missing_iff (jl : String → Option Json)
    (runner : List String → ProcOut) (fs : String → Option String)
    (repo_root pattern : String) (mh radius : Int) :
    (fs repo_root = none →
        run_rg jl runner fs repo_root pattern mh DEFAULT_EXCLUDE_GLOBS
          = .error (.fileNotFound ("Repo root not found: " ++ repo_root)))
    ∧ ((fs repo_root).isSome = true → ∀ msg,
        run_rg jl runner fs repo_root pattern mh DEFAULT_EXCLUDE_GLOBS
          ≠ .error (.fileNotFound msg))
    ∧ (∀ e,
        run_rg jl runner fs repo_root pattern mh DEFAULT_EXCLUDE_GLOBS = .error e →
        search_and_slice jl runner fs repo_root pattern mh radius = .error e)
    ∧ (∀ (resolve : String → String) (argv : List String) (mh' r' : Int) e,
        3 ≤ argv.length →
        (if 4 ≤ argv.length then pyInt (argv.getD 3 "") else some 8) = some mh' →
        (if 5 ≤ argv.length then pyInt (argv.getD 4 "") else some 60) = some r' →
        search_and_slice jl runner fs (resolve (argv.getD 1 ""))
            (argv.getD 2 "") mh' r' = .error e →
        mainFn jl runner fs resolve argv = .error e) := by
  refine ⟨?_, ?_, ?_, ?_⟩
  · intro h
    simp [run_rg, h]
  · intro hs msg
    unfold run_rg
    simp only [hs]
    by_cases hb : pyBlank pattern <;> simp [hb]
    by_cases ho : pyBlank (runner (rgCmd DEFAULT_EXCLUDE_GLOBS pattern repo_root)).stdout <;>
      simp [ho]
    · by_cases he : pyStrip (runner (rgCmd DEFAULT_EXCLUDE_GLOBS pattern repo_root)).stderr = "" <;>
        simp [he]
    · rcases hd : decodeLines jl mh
          (pySplitlines (runner (rgCmd DEFAULT_EXCLUDE_GLOBS pattern repo_root)).stdout) []
          with e | hits <;> simp [hd]
      intro h
      rw [h] at hd
      exact decodeLines_ne_fnf jl mh msg _ [] hd
  · intro e h
    unfold search_and_slice
    rw [h]
  · intro resolve argv mh' r' e h3 hm hr hs
    unfold mainFn
    rw [if_neg (by omega)]
    dsimp only
    split
    · next heq =>
        rw [hm] at heq
        exact Option.noConfusion heq
    · next mh'' heq =>
        rw [hm] at heq
        injection heq with heq
        subst heq
        split
        · next heq2 =>
            rw [hr] at heq2
            exact Option.noConfusion heq2
        · next r'' heq2 =>
            rw [hr] at heq2
            injection heq2 with heq2
            subst heq2
            rw [hs]

/-- C5 witness: a missing root `/nope` raises and propagates through
`search_and_slice` and `main`; an existing root never raises "not found". -/
theorem c5_root_missing_iff_witness :
    run_rg jlSample (runnerOf "" "") fsA "/nope" "pat" 8 DEFAULT_EXCLUDE_GLOBS
      = .error (.fileNotFound ("Repo root not found: " ++ "/nope"))
    ∧ search_and_slice jlSample (runnerOf "" "") fsA "/nope" "pat" 8 60
      = .error (.fileNotFound ("Repo root not found: " ++ "/nope"))
    ∧ mainFn jlSample (runnerOf "" "") fsA id ["prog", "/nope", "pat"]
      = .error (.fileNotFound ("Repo root not found: " ++ "/nope"))
    ∧ run_rg jlSample (runnerOf "" "") fsA "/repo" "pat" 8 DEFAULT_EXCLUDE_GLOBS
      ≠ .error (.fileNotFound "Repo root not found: /repo") := by
  have h := c5_root_missing_iff jlSample (runnerOf "" "") fsA "/nope" "pat" 8 60
  have h1 := h.1 (by decide)
  have h2 := h.2.2.1 _ h1
  have h3 := h.2.2.2 id ["prog", "/nope", "pat"] 8 60 _ (by decide) rfl rfl h2
  have h4 := (c5_root_missing_iff jlSample (runnerOf "" "") fsA "/repo" "pat"
    8 60).2.1 (by decide) "Repo root not found: /repo"
  exact ⟨h1, h2, h3, h4⟩

/-- C9: `main` returns status 2 (after the two usage lines) exactly when
fewer than two positional values are supplied; with at least two, whenever
it runs to completion it returns 0, printing `No matches.` when the
orchestrator yields no hits and otherwise each hit preceded by its
1-based/total banner. -/
theorem c9_main_exit_codes (jl : String → Option Json)
    (runner : List String → ProcOut) (fs : String → Option String)
    (resolve : String → String) (argv : List String) :
    (argv.length < 3 →
        mainFn jl runner fs resolve argv = .ok (2, [usageLine1, usageLine2]))
    ∧ (3 ≤ argv.length → ∀ (c : Int) (out : List String),
        mainFn jl runner fs resolve argv = .ok (c, out) →
        c = 0 ∧ ∃ (hits : List Hit) (printed : List String) (mh radius : Int),
          (if 4 ≤ argv.length then pyInt (argv.getD 3 "") else some 8) = some mh
          ∧ (if 5 ≤ argv.length then pyInt (argv.getD 4 "") else some 60)
              = some radius
          ∧ search_and_slice jl runner fs (resolve (argv.getD 1 ""))
              (argv.getD 2 "") mh radius = .ok (hits, printed)
          ∧ out = printed
              ++ (if hits.length = 0 then ["No matches."] else renderHits hits)) := by
  constructor
  · intro h
    simp [mainFn, h]
  · intro h3 c out h
    unfold mainFn at h
    rw [if_neg (by omega)] at h
    dsimp only at h
    split at h
    · exact Except.noConfusion h
    · next mh heq =>
        split at h
        · exact Except.noConfusion h
        · next r heq2 =>
            split at h
            · exact Except.noConfusion h
            · next hits printed heq3 =>
                split at h
                · next hlen =>
                    simp only [Except.ok.injEq, Prod.mk.injEq] at h
                    exact ⟨h.1.symm, hits, printed, mh, r, heq, heq2, heq3,
                      by rw [← h.2, if_pos hlen]⟩
                · next hlen =>
                    simp only [Except.ok.injEq, Prod.mk.injEq] at h
                    exact ⟨h.1.symm, hits, printed, mh, r, heq, heq2, heq3,
                      by rw [← h.2, if_neg hlen]⟩

/-- C9 witness: one positional value yields status 2 with the usage lines;
a full invocation that finds nothing completes, and the theorem forces its
status to 0. -/
theorem c9_main_exit_codes_witness :
    mainFn jlSample (runnerOf "" "") fsA id ["repo_slice.py"]
      = .ok (2, [usageLine1, usageLine2])
    ∧ (0 : Int) = 0 :=
  ⟨(c9_main_exit_codes jlSample (runnerOf "" "") fsA id ["repo_slice.py"]).1
      (by decide),
   ((c9_main_exit_codes jlSample (runnerOf "" "") fsA id
      ["prog", "/repo", "zzz"]).2 (by decide) 0 ["No matches."] (by rfl)).1⟩
